import Mathlib

/-!
Verification of the pyOnvista market-data client against its
natural-language specification.

The repository ships only the demo scripts under `examples/`; the core
library (`src/pyonvista/api.py`) is not part of the excerpt.  Every
definition below is therefore modelled from the specification document
(sections 3, 4, 5, 7, 8), faithful to its words, and the claims are
settled against this model.
-/

set_option autoImplicit false

namespace Onvista

/-- Modelled from the spec (section 7): the error taxonomy of the system.
The core library is absent from the excerpt, so the taxonomy is taken
verbatim from the spec's list. -/
inductive ApiError where
  | invalidQuery
  | invalidFormat
  | notFound
  | timeout
  | httpError (status : Nat)
  | parseError
  | malformedSnapshot
  | rateLimited
deriving DecidableEq, Repr

/-! ## ISIN validator (spec section 4.1) -/

/-- Decimal digit character (ASCII 48..57). -/
def isDigitChar (c : Char) : Bool :=
  48 ≤ c.toNat && c.toNat ≤ 57

/-- Uppercase letter character (ASCII 65..90). -/
def isUpperChar (c : Char) : Bool :=
  65 ≤ c.toNat && c.toNat ≤ 90

/-- Uppercase alphanumeric character. -/
def isAlnumChar (c : Char) : Bool :=
  isDigitChar c || isUpperChar c

/-- Modelled from the spec: numeric expansion of ISIN characters,
digits keep their value, letters map to A=10..Z=35. -/
def charVal (c : Char) : Option Nat :=
  if isDigitChar c then some (c.toNat - 48)
  else if isUpperChar c then some (c.toNat - 55)
  else none

/-- A character expands to the decimal digits of its numeric value
(one digit for 0..9, two digits for 10..35). -/
def expandChar (c : Char) : Option (List Nat) :=
  match charVal c with
  | some v => some (if v < 10 then [v] else [v / 10, v % 10])
  | none => none

/-- Expansion of a character list into the concatenated digit list;
fails if any character is outside the ISIN charset. -/
def expandAll : List Char → Option (List Nat)
  | [] => some []
  | c :: cs =>
    match expandChar c, expandAll cs with
    | some ds, some rest => some (ds ++ rest)
    | _, _ => none

/-- One Luhn digit contribution: a digit in a doubled position is
doubled, and 9 is subtracted when the double exceeds 9. -/
def luhnDigit (doubled : Bool) (d : Nat) : Nat :=
  if doubled then (if 9 < 2 * d then 2 * d - 9 else 2 * d) else d

/-- Luhn accumulator over a digit list given rightmost-first, with the
flag telling whether the current position is doubled. -/
def luhnAux : List Nat → Bool → Nat
  | [], _ => 0
  | d :: ds, doubled => luhnDigit doubled d + luhnAux ds (!doubled)

/-- Modelled from the spec: the standard Luhn sum of a digit list —
starting from the rightmost digit (not doubled), every second digit is
doubled. -/
def luhnSum (ds : List Nat) : Nat :=
  luhnAux ds.reverse false

/-- Modelled from the spec (section 4.1): shape of an ISIN — exactly 12
characters, a 2-letter country code, a 9-character uppercase
alphanumeric identifier, and a trailing decimal check digit. -/
def isinShape (cs : List Char) : Bool :=
  decide (cs.length = 12) && (cs.take 2).all isUpperChar &&
    (cs.drop 2).all isAlnumChar &&
    (match cs.getLast? with
     | some d => isDigitChar d
     | none => false)

/-- Full ISIN acceptance test: shape plus Luhn checksum over the
numeric expansion (the whole 12-character expansion must sum to a
multiple of 10). -/
def isinOk (cs : List Char) : Bool :=
  isinShape cs &&
    (match expandAll cs with
     | some ds => decide (luhnSum ds % 10 = 0)
     | none => false)

/-- Modelled from the spec (section 4.1):
`validate(code) -> normalized ISIN or fails with InvalidFormat`.
Mismatch of the check digit or malformed length/charset fails with
`InvalidFormat`; an accepted code is returned unchanged (it is already
in the normal 12-character uppercase form). -/
def validate (code : String) : Except ApiError String :=
  if isinOk code.data then .ok code else .error .invalidFormat

/-- The check digit recomputed from the first 11 characters: the Luhn
sum is taken with positions shifted by one (the absent trailing digit
would occupy the undoubled rightmost slot), and the digit that makes
the total a multiple of 10 is returned. -/
def recomputedCheck (cs : List Char) : Option Nat :=
  match expandAll (cs.take 11) with
  | some ds => some ((10 - luhnAux ds.reverse true % 10) % 10)
  | none => none

/-- The value of the trailing character, provided it is a digit. -/
def lastCheckDigit (cs : List Char) : Option Nat :=
  match cs.getLast? with
  | some c => if isDigitChar c then some (c.toNat - 48) else none
  | none => none

/-- The concrete valid ISIN used by the spec and both demo scripts. -/
def sampleGood : String := "DE0007164600"

/-- The same code with its check digit disturbed. -/
def sampleBad : String := "DE0007164601"

theorem expandChar_digit {c : Char} (h : isDigitChar c = true) :
    expandChar c = some [c.toNat - 48] ∧ c.toNat - 48 < 10 := by
  have h2 : 48 ≤ c.toNat ∧ c.toNat ≤ 57 := by
    simpa [isDigitChar, Bool.and_eq_true, decide_eq_true_iff] using h
  have hv : charVal c = some (c.toNat - 48) := by simp [charVal, h]
  refine ⟨?_, by omega⟩
  rw [expandChar, hv]
  simp only [Option.some.injEq]
  rw [if_pos (by omega)]

theorem charVal_isSome_of_alnum {c : Char} (h : isAlnumChar c = true) :
    ∃ v, charVal c = some v := by
  unfold isAlnumChar at h
  cases hd : isDigitChar c with
  | true => exact ⟨c.toNat - 48, by simp [charVal, hd]⟩
  | false =>
    rw [hd, Bool.false_or] at h
    exact ⟨c.toNat - 55, by simp [charVal, hd, h]⟩

theorem expandAll_isSome {cs : List Char} (h : ∀ c ∈ cs, isAlnumChar c = true) :
    ∃ ds, expandAll cs = some ds := by
  induction cs with
  | nil => exact ⟨[], rfl⟩
  | cons c cs ih =>
    obtain ⟨v, hv⟩ := charVal_isSome_of_alnum (h c (by simp))
    obtain ⟨ds, hds⟩ := ih (fun x hx => h x (by simp [hx]))
    refine ⟨(if v < 10 then [v] else [v / 10, v % 10]) ++ ds, ?_⟩
    simp [expandAll, expandChar, hv, hds]

theorem expandAll_append {a b : List Char} {da db : List Nat}
    (ha : expandAll a = some da) (hb : expandAll b = some db) :
    expandAll (a ++ b) = some (da ++ db) := by
  induction a generalizing da with
  | nil =>
    simp only [expandAll, Option.some.injEq] at ha
    subst ha
    simpa using hb
  | cons c cs ih =>
    cases hc : expandChar c with
    | none => simp [expandAll, hc] at ha
    | some ds =>
      cases hcs : expandAll cs with
      | none => simp [expandAll, hc, hcs] at ha
      | some rest =>
        have ha' : ds ++ rest = da := by simpa [expandAll, hc, hcs] using ha
        have hrec := ih hcs
        simp [List.cons_append, expandAll, hc, hrec, ← ha', List.append_assoc]

theorem luhnSum_concat (e : List Nat) (d : Nat) :
    luhnSum (e ++ [d]) = d + luhnAux e.reverse true := by
  simp [luhnSum, List.reverse_append, luhnAux, luhnDigit]

theorem isinOk_iff_checkDigit {cs : List Char} (hlen : cs.length = 12) :
    isinOk cs = true ↔ (isinShape cs = true ∧ recomputedCheck cs = lastCheckDigit cs) := by
  cases hs : isinShape cs with
  | false => simp [isinOk, hs]
  | true =>
    have hlen1 : (cs.drop 11).length = 1 := by simp [hlen]
    obtain ⟨c12, hc12⟩ := List.length_eq_one.mp hlen1
    have heq : cs.take 11 ++ [c12] = cs := by
      rw [← hc12]; exact List.take_append_drop 11 cs
    have hlast : cs.getLast? = some c12 := by
      rw [← heq]; exact List.getLast?_concat _
    have hs' := hs
    unfold isinShape at hs'
    rw [Bool.and_eq_true, Bool.and_eq_true, Bool.and_eq_true] at hs'
    obtain ⟨⟨⟨-, htake2⟩, hdrop2⟩, hlastdig⟩ := hs'
    have hdig12 : isDigitChar c12 = true := by
      rw [hlast] at hlastdig; exact hlastdig
    have halnum : ∀ c ∈ cs, isAlnumChar c = true := by
      intro c hc
      rw [← List.take_append_drop 2 cs] at hc
      rcases List.mem_append.mp hc with h2 | h2
      · have := (List.all_eq_true.mp htake2) c h2
        simp [isAlnumChar, this]
      · exact (List.all_eq_true.mp hdrop2) c h2
    obtain ⟨ds11, hds11⟩ :=
      expandAll_isSome (fun c hc => halnum c ((List.take_sublist 11 cs).subset hc))
    obtain ⟨hexp12, hdvlt⟩ := expandChar_digit hdig12
    have h12 : expandAll [c12] = some [c12.toNat - 48] := by
      simp [expandAll, hexp12]
    have hall : expandAll cs = some (ds11 ++ [c12.toNat - 48]) := by
      rw [← heq]; exact expandAll_append hds11 h12
    have hrec : recomputedCheck cs
        = some ((10 - luhnAux ds11.reverse true % 10) % 10) := by
      simp [recomputedCheck, hds11]
    have hlcd : lastCheckDigit cs = some (c12.toNat - 48) := by
      simp [lastCheckDigit, hlast, hdig12]
    rw [isinOk, hs, Bool.true_and, hall, hrec, hlcd]
    simp only [decide_eq_true_iff, Option.some.injEq, luhnSum_concat, true_and, hs]
    omega

/-- C1: for every 12-character input, `validate` accepts (returning the
normalized ISIN) iff the shape is well formed and the check digit
recomputed by the Luhn-based algorithm over the numeric expansion of
letters (A=10..Z=35) equals the trailing digit; any length or charset
violation fails with `InvalidFormat`; `validate` accepts
`DE0007164600` and rejects `DE0007164601`. -/
theorem isin_validator_spec :
    (∀ code : String, code.length = 12 →
      (validate code = .ok code ↔
        (isinShape code.data = true ∧
          recomputedCheck code.data = lastCheckDigit code.data))) ∧
    (∀ code : String, code.length ≠ 12 → validate code = .error .invalidFormat) ∧
    (∀ code : String, isinShape code.data = false →
      validate code = .error .invalidFormat) ∧
    validate sampleGood = .ok sampleGood ∧
    validate sampleBad = .error .invalidFormat := by
  refine ⟨?_, ?_, ?_, rfl, rfl⟩
  · intro code hlen
    have hlen' : code.data.length = 12 := hlen
    rw [validate]
    constructor
    · intro h
      cases hok : isinOk code.data with
      | false => rw [hok] at h; exact absurd h (by simp)
      | true => exact (isinOk_iff_checkDigit hlen').mp hok
    · intro h
      rw [if_pos ((isinOk_iff_checkDigit hlen').mpr h)]
  · intro code hlen
    have hlen' : code.data.length ≠ 12 := hlen
    have hshape : isinShape code.data = false := by
      unfold isinShape
      rw [decide_eq_false hlen']
      simp
    rw [validate, isinOk, hshape]
    simp
  · intro code hshape
    rw [validate, isinOk, hshape]
    simp

/-- Witness for C1 at concrete inputs. -/
theorem isin_validator_spec_witness :
    (validate sampleGood = .ok sampleGood ↔
      (isinShape sampleGood.data = true ∧
        recomputedCheck sampleGood.data = lastCheckDigit sampleGood.data)) ∧
    validate { data := [] } = .error .invalidFormat :=
  ⟨isin_validator_spec.1 sampleGood (by rfl),
    isin_validator_spec.2.1 { data := [] } (by decide)⟩

/-! ## JSON documents and tolerant path resolution (spec sections 4.4, 6) -/

/-- Modelled from the spec (section 6): response shapes are JSON
documents — nested mappings with optional sections. -/
inductive Json where
  | null
  | bool (b : Bool)
  | num (q : Rat)
  | str (s : String)
  | arr (items : List Json)
  | obj (fields : List (String × Json))

/-- Whether a document is a mapping at top level (a usable snapshot). -/
def isObjB : Json → Bool
  | .obj _ => true
  | _ => false

/-- First binding of a key in a mapping. -/
def lookupKey : List (String × Json) → String → Option Json
  | [], _ => none
  | (k, v) :: rest, key => if k = key then some v else lookupKey rest key

/-- Resolution of one key path against a document; absent keys or
non-mapping intermediate nodes yield `none`. -/
def resolvePath : List String → Json → Option Json
  | [], j => some j
  | k :: ks, .obj fields =>
    (match lookupKey fields k with
     | some v => resolvePath ks v
     | none => none)
  | _ :: _, _ => none

/-- Modelled from the spec (section 4.4): tolerant path resolution —
for each target field an ordered list of candidate key paths is tried
in sequence, the first present, well-typed value wins; if none match
the field is recorded as absent. -/
def resolveField {α : Type} (coerce : Json → Option α)
    (paths : List (List String)) (snap : Json) : Option α :=
  paths.findSome? (fun p => (resolvePath p snap).bind coerce)

/-! ## Numeric normalization (spec section 4.4) -/

/-- Value of a decimal digit character. -/
def charDigit (c : Char) : Option Nat :=
  if isDigitChar c then some (c.toNat - 48) else none

def digitsValAux : Nat → List Char → Option Nat
  | acc, [] => some acc
  | acc, c :: cs =>
    match charDigit c with
    | some d => digitsValAux (10 * acc + d) cs
    | none => none

/-- The value of a string of decimal digits, most significant first. -/
def digitsVal (cs : List Char) : Option Nat :=
  digitsValAux 0 cs

/-- Decimal or thousands separator character. -/
def isSepC (c : Char) : Bool :=
  c == '.' || c == ','

/-- Modelled from the spec (section 4.4): locale-aware number reading.
The last separator occurring exactly once is the decimal separator
(either `.` or `,`); every other separator is a thousands separator
and is dropped. -/
def parseUnsigned (cs : List Char) : Option Rat :=
  if cs.isEmpty then none
  else
    let seps := cs.filter isSepC
    match seps.getLast? with
    | none => (digitsVal cs).map (fun n => (n : Rat))
    | some d =>
      if seps.count d = 1 then
        let intRaw := (cs.takeWhile (fun c => c != d)).filter (fun c => !isSepC c)
        let fracRaw := (cs.dropWhile (fun c => c != d)).drop 1
        match digitsVal intRaw, digitsVal fracRaw with
        | some n, some f =>
          some ((n : Rat) + (f : Rat) / ((10 : Rat) ^ fracRaw.length))
        | _, _ => none
      else
        (digitsVal (cs.filter (fun c => !isSepC c))).map (fun n => (n : Rat))

/-- Signed locale-aware number reading. -/
def parseNumber : List Char → Option Rat
  | '-' :: cs => (parseUnsigned cs).map (fun r => -r)
  | '+' :: cs => parseUnsigned cs
  | cs => parseUnsigned cs

/-- Splits off one trailing percent sign. -/
def stripPercent (cs : List Char) : List Char × Bool :=
  match cs.getLast? with
  | some '%' => (cs.dropLast, true)
  | _ => (cs, false)

/-- Modelled from the spec (section 4.4): the single numeric
normalization step shared by all numeric fields — locale-aware
decimal/thousands-separator handling plus percentage-vs-fraction
disambiguation for percentage-kind fields: a value carrying a percent
sign is already a percentage, while a bare fraction (absolute value
below one) is scaled by 100, so `0.034` and `"3.4%"` agree. -/
def normalizeChars (percentKind : Bool) (cs : List Char) : Option Rat :=
  match stripPercent cs with
  | (body, hadPct) =>
    (parseNumber body).map
      (fun r =>
        if percentKind && !hadPct && decide (-1 < r) && decide (r < 1) then 100 * r
        else r)

/-- Numeric coercion of a JSON value through the normalization step. -/
def normalizeNumeric (percentKind : Bool) : Json → Option Rat
  | .num q =>
    some (if percentKind && decide (-1 < q) && decide (q < 1) then 100 * q else q)
  | .str s => normalizeChars percentKind s.data
  | _ => none

/-- String coercion: only a JSON string is accepted. -/
def coerceStr : Json → Option String
  | .str s => some s
  | _ => none

/-- Nonnegative integer coercion: only an integral JSON number. -/
def coerceNat : Json → Option Nat
  | .num q => if q.den = 1 && decide (0 ≤ q.num) then some q.num.toNat else none
  | _ => none

/-! ## Typed section results (spec section 3)

Every field is an `Option`: a validated typed value or explicitly
absent — never a sentinel. -/

structure FinancialRatios where
  pe_ratio : Option Rat
  pb_ratio : Option Rat
  eps : Option Rat
  dividend_yield : Option Rat
  market_cap : Option Rat
deriving DecidableEq, Repr

structure PerformanceMetrics where
  performance_1d : Option Rat
  performance_1w : Option Rat
  performance_1m : Option Rat
  performance_1y : Option Rat
  volatility_30d : Option Rat
  beta : Option Rat
deriving DecidableEq, Repr

structure TechnicalIndicators where
  moving_avg_20d : Option Rat
  moving_avg_200d : Option Rat
  rsi_14d : Option Rat
  bollinger_upper : Option Rat
  bollinger_lower : Option Rat
deriving DecidableEq, Repr

structure CompanyInfo where
  sector : Option String
  industry : Option String
  country : Option String
  employees : Option Nat
  headquarters : Option String
  founded : Option Nat
deriving DecidableEq, Repr

structure SustainabilityData where
  esg_score : Option Rat
  environmental_score : Option Rat
  social_score : Option Rat
  governance_score : Option Rat
  sustainability_rating : Option String
deriving DecidableEq, Repr

/-! ## Candidate key-path tables (spec sections 4.4, 9)

Modelled from the spec: the same logical field may appear under
different keys or at different depths, so each field owns a declarative
ordered table of candidate paths.  The exact remote key names are an
external service contract the spec leaves open; representative names
are used here. -/

def peRatioPaths : List (List String) :=
  [ [ "instrument", "fundamental", "peRatio" ], [ "stocksFigure", "peRatio" ] ]

def pbRatioPaths : List (List String) :=
  [ [ "instrument", "fundamental", "pbRatio" ], [ "stocksFigure", "priceBookRatio" ] ]

def epsPaths : List (List String) :=
  [ [ "instrument", "fundamental", "eps" ], [ "stocksFigure", "earningsPerShare" ] ]

def dividendYieldPaths : List (List String) :=
  [ [ "instrument", "fundamental", "dividendYield" ],
    [ "stocksFigure", "dividendYield" ] ]

def marketCapPaths : List (List String) :=
  [ [ "instrument", "fundamental", "marketCap" ],
    [ "stocksFigure", "marketCapitalization" ] ]

def perf1dPaths : List (List String) :=
  [ [ "instrument", "performance", "perf1d" ], [ "quote", "performancePct" ] ]

def perf1wPaths : List (List String) :=
  [ [ "instrument", "performance", "perf1w" ], [ "performance", "week" ] ]

def perf1mPaths : List (List String) :=
  [ [ "instrument", "performance", "perf1m" ], [ "performance", "month" ] ]

def perf1yPaths : List (List String) :=
  [ [ "instrument", "performance", "perf1y" ], [ "performance", "year" ] ]

def volatilityPaths : List (List String) :=
  [ [ "instrument", "performance", "volatility30" ], [ "stocksFigure", "vola30d" ] ]

def betaPaths : List (List String) :=
  [ [ "instrument", "performance", "beta" ], [ "stocksFigure", "beta" ] ]

def movingAvg20Paths : List (List String) :=
  [ [ "instrument", "technical", "ma20" ], [ "technical", "movingAverage20" ] ]

def movingAvg200Paths : List (List String) :=
  [ [ "instrument", "technical", "ma200" ], [ "technical", "movingAverage200" ] ]

def rsiPaths : List (List String) :=
  [ [ "instrument", "technical", "rsi14" ], [ "technical", "rsi" ] ]

def bollingerUpperPaths : List (List String) :=
  [ [ "instrument", "technical", "bollingerUpper" ] ]

def bollingerLowerPaths : List (List String) :=
  [ [ "instrument", "technical", "bollingerLower" ] ]

def sectorPaths : List (List String) :=
  [ [ "instrument", "company", "sector" ], [ "company", "branch" ] ]

def industryPaths : List (List String) :=
  [ [ "instrument", "company", "industry" ], [ "company", "industry" ] ]

def companyCountryPaths : List (List String) :=
  [ [ "instrument", "company", "country" ], [ "company", "isoCountry" ] ]

def employeesPaths : List (List String) :=
  [ [ "instrument", "company", "employees" ], [ "company", "numEmployees" ] ]

def headquartersPaths : List (List String) :=
  [ [ "instrument", "company", "headquarters" ], [ "company", "city" ] ]

def foundedPaths : List (List String) :=
  [ [ "instrument", "company", "founded" ], [ "company", "yearFounded" ] ]

def esgScorePaths : List (List String) :=
  [ [ "instrument", "sustainability", "esgScore" ], [ "esg", "totalScore" ] ]

def environmentalPaths : List (List String) :=
  [ [ "instrument", "sustainability", "environmental" ], [ "esg", "envScore" ] ]

def socialPaths : List (List String) :=
  [ [ "instrument", "sustainability", "social" ], [ "esg", "socScore" ] ]

def governancePaths : List (List String) :=
  [ [ "instrument", "sustainability", "governance" ], [ "esg", "govScore" ] ]

def esgRatingPaths : List (List String) :=
  [ [ "instrument", "sustainability", "rating" ], [ "esg", "rating" ] ]

/-! ## Snapshot extraction engine (spec section 4.4)

Each call fails only if the supplied snapshot is not a mapping at all
(`MalformedSnapshot`); an individual missing or ill-typed field is
recovered silently as absent. -/

/-- All fields unset. -/
def absentRatios : FinancialRatios :=
  ⟨none, none, none, none, none⟩

def absentPerf : PerformanceMetrics :=
  ⟨none, none, none, none, none, none⟩

def absentTech : TechnicalIndicators :=
  ⟨none, none, none, none, none⟩

def absentCompany : CompanyInfo :=
  ⟨none, none, none, none, none, none⟩

def absentSust : SustainabilityData :=
  ⟨none, none, none, none, none⟩

/-- Modelled from the spec (section 4.4): extraction of the financial
ratios section by tolerant path resolution. -/
def extractFinancialRatios (snap : Json) : Except ApiError FinancialRatios :=
  if isObjB snap then
    .ok
      { pe_ratio := resolveField (normalizeNumeric false) peRatioPaths snap
        pb_ratio := resolveField (normalizeNumeric false) pbRatioPaths snap
        eps := resolveField (normalizeNumeric false) epsPaths snap
        dividend_yield := resolveField (normalizeNumeric true) dividendYieldPaths snap
        market_cap := resolveField (normalizeNumeric false) marketCapPaths snap }
  else .error .malformedSnapshot

/-- Modelled from the spec (section 4.4): extraction of the
performance section. -/
def extractPerformanceMetrics (snap : Json) : Except ApiError PerformanceMetrics :=
  if isObjB snap then
    .ok
      { performance_1d := resolveField (normalizeNumeric true) perf1dPaths snap
        performance_1w := resolveField (normalizeNumeric true) perf1wPaths snap
        performance_1m := resolveField (normalizeNumeric true) perf1mPaths snap
        performance_1y := resolveField (normalizeNumeric true) perf1yPaths snap
        volatility_30d := resolveField (normalizeNumeric true) volatilityPaths snap
        beta := resolveField (normalizeNumeric false) betaPaths snap }
  else .error .malformedSnapshot

/-- Modelled from the spec (section 4.4): extraction of the technical
indicators section. -/
def extractTechnicalIndicators (snap : Json) : Except ApiError TechnicalIndicators :=
  if isObjB snap then
    .ok
      { moving_avg_20d := resolveField (normalizeNumeric false) movingAvg20Paths snap
        moving_avg_200d := resolveField (normalizeNumeric false) movingAvg200Paths snap
        rsi_14d := resolveField (normalizeNumeric false) rsiPaths snap
        bollinger_upper := resolveField (normalizeNumeric false) bollingerUpperPaths snap
        bollinger_lower := resolveField (normalizeNumeric false) bollingerLowerPaths snap }
  else .error .malformedSnapshot

/-- Modelled from the spec (section 4.4): extraction of the company
profile section. -/
def extractCompanyInfo (snap : Json) : Except ApiError CompanyInfo :=
  if isObjB snap then
    .ok
      { sector := resolveField coerceStr sectorPaths snap
        industry := resolveField coerceStr industryPaths snap
        country := resolveField coerceStr companyCountryPaths snap
        employees := resolveField coerceNat employeesPaths snap
        headquarters := resolveField coerceStr headquartersPaths snap
        founded := resolveField coerceNat foundedPaths snap }
  else .error .malformedSnapshot

/-- Modelled from the spec (section 4.4): extraction of the
sustainability/ESG section. -/
def extractSustainabilityData (snap : Json) : Except ApiError SustainabilityData :=
  if isObjB snap then
    .ok
      { esg_score := resolveField (normalizeNumeric false) esgScorePaths snap
        environmental_score := resolveField (normalizeNumeric false) environmentalPaths snap
        social_score := resolveField (normalizeNumeric false) socialPaths snap
        governance_score := resolveField (normalizeNumeric false) governancePaths snap
        sustainability_rating := resolveField coerceStr esgRatingPaths snap }
  else .error .malformedSnapshot

/-- All candidate paths of the financial-ratios section. -/
def ratiosSectionPaths : List (List String) :=
  peRatioPaths ++ pbRatioPaths ++ epsPaths ++ dividendYieldPaths ++ marketCapPaths

def perfSectionPaths : List (List String) :=
  perf1dPaths ++ perf1wPaths ++ perf1mPaths ++ perf1yPaths ++
    volatilityPaths ++ betaPaths

def techSectionPaths : List (List String) :=
  movingAvg20Paths ++ movingAvg200Paths ++ rsiPaths ++
    bollingerUpperPaths ++ bollingerLowerPaths

def companySectionPaths : List (List String) :=
  sectorPaths ++ industryPaths ++ companyCountryPaths ++ employeesPaths ++
    headquartersPaths ++ foundedPaths

def sustSectionPaths : List (List String) :=
  esgScorePaths ++ environmentalPaths ++ socialPaths ++ governancePaths ++
    esgRatingPaths

/-- All candidate paths of a section are dead in a snapshot: nothing at
all resolves — the snapshot is missing the entire section. -/
def pathsDead (paths : List (List String)) (snap : Json) : Bool :=
  paths.all (fun p => (resolvePath p snap).isNone)

/-! ## Instrument aggregate (spec sections 3, 4.5) -/

/-- Modelled from the spec (section 3): instrument type enumeration. -/
inductive InstrumentType where
  | stock
  | fund
  | bond
  | index
  | other
deriving DecidableEq, Repr

/-- Modelled from the spec (section 3): a quote in the instrument's
native currency, stamped with the exchange's last-traded time. -/
structure Quote where
  close : Rat
  volume : Nat
  timestamp : Nat
  currency : String
deriving DecidableEq, Repr

/-- Modelled from the spec (sections 3, 4.5): identity, optional
latest quote, the owned raw snapshot document, and the per-section
memoization cells. -/
structure Instrument where
  isin : String
  symbol : String
  name : String
  itype : InstrumentType
  country : String
  quote : Option Quote
  snapshot : Option Json
  cacheRatios : Option FinancialRatios
  cachePerf : Option PerformanceMetrics
  cacheTech : Option TechnicalIndicators
  cacheCompany : Option CompanyInfo
  cacheSust : Option SustainabilityData

/-- Modelled from the spec (section 4.5): section derivation — the
cached value is returned unchanged if present; with no snapshot
attached a fully-absent result is returned rather than failing; else
the snapshot is parsed once and the result memoized.  The `Nat`
component counts the snapshot parses performed by the call. -/
def Instrument.get_financial_ratios (inst : Instrument) :
    Except ApiError (FinancialRatios × Instrument × Nat) :=
  match inst.cacheRatios with
  | some r => .ok (r, inst, 0)
  | none =>
    match inst.snapshot with
    | none => .ok (absentRatios, { inst with cacheRatios := some absentRatios }, 0)
    | some snap =>
      match extractFinancialRatios snap with
      | .ok r => .ok (r, { inst with cacheRatios := some r }, 1)
      | .error e => .error e

/-- Section derivation for performance metrics (spec section 4.5). -/
def Instrument.get_performance_metrics (inst : Instrument) :
    Except ApiError (PerformanceMetrics × Instrument × Nat) :=
  match inst.cachePerf with
  | some r => .ok (r, inst, 0)
  | none =>
    match inst.snapshot with
    | none => .ok (absentPerf, { inst with cachePerf := some absentPerf }, 0)
    | some snap =>
      match extractPerformanceMetrics snap with
      | .ok r => .ok (r, { inst with cachePerf := some r }, 1)
      | .error e => .error e

/-- Section derivation for technical indicators (spec section 4.5). -/
def Instrument.get_technical_indicators (inst : Instrument) :
    Except ApiError (TechnicalIndicators × Instrument × Nat) :=
  match inst.cacheTech with
  | some r => .ok (r, inst, 0)
  | none =>
    match inst.snapshot with
    | none => .ok (absentTech, { inst with cacheTech := some absentTech }, 0)
    | some snap =>
      match extractTechnicalIndicators snap with
      | .ok r => .ok (r, { inst with cacheTech := some r }, 1)
      | .error e => .error e

/-- Section derivation for the company profile (spec section 4.5). -/
def Instrument.get_company_info (inst : Instrument) :
    Except ApiError (CompanyInfo × Instrument × Nat) :=
  match inst.cacheCompany with
  | some r => .ok (r, inst, 0)
  | none =>
    match inst.snapshot with
    | none => .ok (absentCompany, { inst with cacheCompany := some absentCompany }, 0)
    | some snap =>
      match extractCompanyInfo snap with
      | .ok r => .ok (r, { inst with cacheCompany := some r }, 1)
      | .error e => .error e

/-- Section derivation for sustainability data (spec section 4.5). -/
def Instrument.get_sustainability_data (inst : Instrument) :
    Except ApiError (SustainabilityData × Instrument × Nat) :=
  match inst.cacheSust with
  | some r => .ok (r, inst, 0)
  | none =>
    match inst.snapshot with
    | none => .ok (absentSust, { inst with cacheSust := some absentSust }, 0)
    | some snap =>
      match extractSustainabilityData snap with
      | .ok r => .ok (r, { inst with cacheSust := some r }, 1)
      | .error e => .error e

/-! ## Search & lookup layer (spec section 4.3) -/

/-- Modelled from the spec (section 3): free-text term, optional
country filter, optional instrument-type filter, result limit. -/
structure SearchQuery where
  term : String
  country : Option String
  itype : Option InstrumentType
  limit : Nat
deriving DecidableEq, Repr

/-- A raw candidate as returned by the remote search endpoint. -/
structure RawInstrument where
  isin : String
  symbol : String
  name : String
  itype : InstrumentType
  country : String
deriving DecidableEq, Repr

/-- Instrument aggregate built from a lightweight search result:
identity only — no snapshot, no quote, empty caches (spec section
4.3: no fundamental-data extraction at this stage). -/
def instrumentOfRaw (r : RawInstrument) : Instrument :=
  { isin := r.isin
    symbol := r.symbol
    name := r.name
    itype := r.itype
    country := r.country
    quote := none
    snapshot := none
    cacheRatios := none
    cachePerf := none
    cacheTech := none
    cacheCompany := none
    cacheSust := none }

/-- A raw candidate satisfies every provided filter (conjunction). -/
def matchesQuery (q : SearchQuery) (r : RawInstrument) : Bool :=
  (match q.country with
   | some c => r.country == c
   | none => true) &&
  (match q.itype with
   | some ty => r.itype == ty
   | none => true)

/-- Modelled from the spec (section 4.3): `searchByText` fails with
`InvalidQuery` on an empty term without invoking the Gateway;
otherwise it retrieves raw candidates from the Gateway, applies the
provided filters conjunctively, and truncates to the requested limit
preserving the remote ordering.  The second component counts the
Gateway invocations the call performed. -/
def searchByText (gw : String → List RawInstrument) (q : SearchQuery) :
    Except ApiError (List Instrument) × Nat :=
  if q.term = "" then (.error .invalidQuery, 0)
  else
    (.ok ((((gw q.term).filter (matchesQuery q)).take q.limit).map instrumentOfRaw), 1)

/-- The result list of a search, `[]` when the search failed. -/
def searchResults (gw : String → List RawInstrument) (q : SearchQuery) :
    List Instrument :=
  match (searchByText gw q).1 with
  | .ok l => l
  | .error _ => []

/-- Modelled from the spec (section 4.3): `lookupByIsin` validates via
the ISIN validator first, propagating `InvalidFormat` as
`InvalidQuery` without any Gateway call; a valid but unresolvable
code yields absence as a normal outcome, not an error.  The second
component counts Gateway invocations. -/
def lookupByIsin (gw : String → Option RawInstrument) (code : String) :
    Except ApiError (Option Instrument) × Nat :=
  match validate code with
  | .error _ => (.error .invalidQuery, 0)
  | .ok norm =>
    match gw norm with
    | none => (.ok none, 1)
    | some r => (.ok (some (instrumentOfRaw r)), 1)

/-! ## Rate-limited gateway pacing (spec sections 4.2, 5, 7)

Discrete-time model of the rolling-window limiter: at most `capacity`
grants inside any `window`; a request finding the window full is
granted at the earliest time a slot frees instead of failing, and only
the hard cap `maxWait` on the waiting time converts pacing into a
`RateLimited` failure. -/

structure LimiterConfig where
  capacity : Nat
  window : Nat
  maxWait : Nat
deriving DecidableEq, Repr

/-- Timestamps of past grants, most recent first. -/
structure LimiterState where
  grants : List Nat
deriving DecidableEq, Repr

/-- The grants still occupying the rolling window at time `t`. -/
def activeGrants (cfg : LimiterConfig) (st : LimiterState) (t : Nat) : List Nat :=
  st.grants.filter (fun g => t < g + cfg.window)

/-- The earliest time a slot frees: the oldest active grant leaves the
window. -/
def earliestFree (cfg : LimiterConfig) (st : LimiterState) (t : Nat) : Nat :=
  match activeGrants cfg st t with
  | [] => t
  | g :: gs => gs.foldl Nat.min g + cfg.window

/-- Modelled from the spec (sections 4.2, 7): one request at time `t`.
With a free slot the request proceeds immediately; with the window
full the caller suspends until `earliestFree` — it is never dropped —
and only a wait beyond the hard cap fails with `RateLimited`. -/
def acquire (cfg : LimiterConfig) (st : LimiterState) (t : Nat) :
    Except ApiError (Nat × LimiterState) :=
  if (activeGrants cfg st t).length < cfg.capacity then
    .ok (t, ⟨t :: st.grants⟩)
  else if earliestFree cfg st t - t ≤ cfg.maxWait then
    .ok (earliestFree cfg st t, ⟨earliestFree cfg st t :: st.grants⟩)
  else .error .rateLimited

/-- A burst of `k` requests all issued at time `t`, served in order;
returns the grant times. -/
def acquireBatch (cfg : LimiterConfig) (st : LimiterState) (t : Nat) :
    Nat → Except ApiError (List Nat × LimiterState)
  | 0 => .ok ([], st)
  | k + 1 =>
    match acquire cfg st t with
    | .error e => .error e
    | .ok (g, st') =>
      match acquireBatch cfg st' t k with
      | .error e => .error e
      | .ok (gs, st'') => .ok (g :: gs, st'')

/-! ## Theorems -/

/-- An empty query used for concrete checks. -/
def emptyTermQuery : SearchQuery :=
  { term := "", country := none, itype := none, limit := 5 }

/-- C6: for every query whose text term is empty, `searchByText` fails
with `InvalidQuery` and issues no remote call (the Gateway invocation
count of the call is zero). -/
theorem searchByText_empty_term (gw : String → List RawInstrument)
    (q : SearchQuery) (h : q.term = "") :
    searchByText gw q = (.error .invalidQuery, 0) := by
  simp [searchByText, h]

/-- Witness for C6 at a concrete query. -/
theorem searchByText_empty_term_witness :
    searchByText (fun _ => []) emptyTermQuery = (.error .invalidQuery, 0) :=
  searchByText_empty_term (fun _ => []) emptyTermQuery rfl

/-- A 12-character code with a correct charset but a failing checksum,
as exercised by the error-handling demo. -/
def sampleMalformed : String := "INVALIDISIN0"

/-- C4: `lookupByIsin` on a code the validator rejects fails with the
boundary error `InvalidQuery` (the validator's `InvalidFormat`
propagated, spec section 4.3) and performs zero Gateway calls; on a
well-formed but unassigned code it returns absence as a normal
outcome after exactly one Gateway call. -/
theorem lookupByIsin_spec :
    (∀ (gw : String → Option RawInstrument) (code : String),
      validate code = .error .invalidFormat →
      lookupByIsin gw code = (.error .invalidQuery, 0)) ∧
    (∀ (gw : String → Option RawInstrument) (code norm : String),
      validate code = .ok norm → gw norm = none →
      lookupByIsin gw code = (.ok none, 1)) := by
  constructor
  · intro gw code h
    simp [lookupByIsin, h]
  · intro gw code norm h hg
    simp [lookupByIsin, h, hg]

/-- Witness for C4: the malformed code fails before any network access
and the valid SAP ISIN resolves to absence on an empty remote. -/
theorem lookupByIsin_spec_witness :
    lookupByIsin (fun _ => none) sampleMalformed = (.error .invalidQuery, 0) ∧
    lookupByIsin (fun _ => none) sampleGood = (.ok none, 1) :=
  ⟨lookupByIsin_spec.1 (fun _ => none) sampleMalformed rfl,
    lookupByIsin_spec.2 (fun _ => none) sampleGood sampleGood rfl rfl⟩

/-! ### Snapshot immutability (C8) -/

theorem ratios_preserves_snapshot (inst : Instrument)
    {r : FinancialRatios} {i' : Instrument} {n : Nat}
    (h : inst.get_financial_ratios = .ok (r, i', n)) :
    i'.snapshot = inst.snapshot := by
  unfold Instrument.get_financial_ratios at h
  split at h
  · cases h; rfl
  · split at h
    · cases h; rfl
    · split at h
      · cases h; rfl
      · cases h

theorem perf_preserves_snapshot (inst : Instrument)
    {r : PerformanceMetrics} {i' : Instrument} {n : Nat}
    (h : inst.get_performance_metrics = .ok (r, i', n)) :
    i'.snapshot = inst.snapshot := by
  unfold Instrument.get_performance_metrics at h
  split at h
  · cases h; rfl
  · split at h
    · cases h; rfl
    · split at h
      · cases h; rfl
      · cases h

theorem tech_preserves_snapshot (inst : Instrument)
    {r : TechnicalIndicators} {i' : Instrument} {n : Nat}
    (h : inst.get_technical_indicators = .ok (r, i', n)) :
    i'.snapshot = inst.snapshot := by
  unfold Instrument.get_technical_indicators at h
  split at h
  · cases h; rfl
  · split at h
    · cases h; rfl
    · split at h
      · cases h; rfl
      · cases h

theorem company_preserves_snapshot (inst : Instrument)
    {r : CompanyInfo} {i' : Instrument} {n : Nat}
    (h : inst.get_company_info = .ok (r, i', n)) :
    i'.snapshot = inst.snapshot := by
  unfold Instrument.get_company_info at h
  split at h
  · cases h; rfl
  · split at h
    · cases h; rfl
    · split at h
      · cases h; rfl
      · cases h

theorem sust_preserves_snapshot (inst : Instrument)
    {r : SustainabilityData} {i' : Instrument} {n : Nat}
    (h : inst.get_sustainability_data = .ok (r, i', n)) :
    i'.snapshot = inst.snapshot := by
  unfold Instrument.get_sustainability_data at h
  split at h
  · cases h; rfl
  · split at h
    · cases h; rfl
    · split at h
      · cases h; rfl
      · cases h

/-- The five section-derivation calls, as state transformers on the
aggregate (a failed call leaves the aggregate unchanged). -/
inductive SectionCall where
  | ratios
  | perf
  | tech
  | company
  | sust
deriving DecidableEq, Repr

def applySectionCall (inst : Instrument) : SectionCall → Instrument
  | .ratios =>
    match inst.get_financial_ratios with
    | .ok (_, i', _) => i'
    | .error _ => inst
  | .perf =>
    match inst.get_performance_metrics with
    | .ok (_, i', _) => i'
    | .error _ => inst
  | .tech =>
    match inst.get_technical_indicators with
    | .ok (_, i', _) => i'
    | .error _ => inst
  | .company =>
    match inst.get_company_info with
    | .ok (_, i', _) => i'
    | .error _ => inst
  | .sust =>
    match inst.get_sustainability_data with
    | .ok (_, i', _) => i'
    | .error _ => inst

/-- C8: once a raw snapshot is stored on an Instrument no operation
mutates it — every section derivation only reads it, so after any
sequence of section-derivation calls the stored snapshot equals the
value stored at attachment. -/
theorem snapshot_never_mutated :
    (∀ (inst : Instrument) (c : SectionCall),
      (applySectionCall inst c).snapshot = inst.snapshot) ∧
    (∀ (inst : Instrument) (calls : List SectionCall),
      (calls.foldl applySectionCall inst).snapshot = inst.snapshot) := by
  have h1 : ∀ (inst : Instrument) (c : SectionCall),
      (applySectionCall inst c).snapshot = inst.snapshot := by
    intro inst c
    cases c
    case ratios =>
      simp only [applySectionCall]
      split
      · rename_i heq
        exact ratios_preserves_snapshot inst heq
      · rfl
    case perf =>
      simp only [applySectionCall]
      split
      · rename_i heq
        exact perf_preserves_snapshot inst heq
      · rfl
    case tech =>
      simp only [applySectionCall]
      split
      · rename_i heq
        exact tech_preserves_snapshot inst heq
      · rfl
    case company =>
      simp only [applySectionCall]
      split
      · rename_i heq
        exact company_preserves_snapshot inst heq
      · rfl
    case sust =>
      simp only [applySectionCall]
      split
      · rename_i heq
        exact sust_preserves_snapshot inst heq
      · rfl
  refine ⟨h1, ?_⟩
  intro inst calls
  induction calls generalizing inst with
  | nil => rfl
  | cons c cs ih =>
    rw [List.foldl_cons, ih, h1]

/-! ### Memoization of section derivation (C3) -/

theorem ratios_memo (inst : Instrument)
    {r : FinancialRatios} {i' : Instrument} {n : Nat}
    (h : inst.get_financial_ratios = .ok (r, i', n)) :
    i'.get_financial_ratios = .ok (r, i', 0) ∧ n ≤ 1 ∧ i'.cacheRatios = some r := by
  unfold Instrument.get_financial_ratios at h
  split at h
  · rename_i heq
    cases h
    exact ⟨by simp [Instrument.get_financial_ratios, heq], by omega, heq⟩
  · split at h
    · cases h
      exact ⟨by simp [Instrument.get_financial_ratios], by omega, rfl⟩
    · split at h
      · cases h
        exact ⟨by simp [Instrument.get_financial_ratios], by omega, rfl⟩
      · cases h

theorem perf_memo (inst : Instrument)
    {r : PerformanceMetrics} {i' : Instrument} {n : Nat}
    (h : inst.get_performance_metrics = .ok (r, i', n)) :
    i'.get_performance_metrics = .ok (r, i', 0) ∧ n ≤ 1 ∧ i'.cachePerf = some r := by
  unfold Instrument.get_performance_metrics at h
  split at h
  · rename_i heq
    cases h
    exact ⟨by simp [Instrument.get_performance_metrics, heq], by omega, heq⟩
  · split at h
    · cases h
      exact ⟨by simp [Instrument.get_performance_metrics], by omega, rfl⟩
    · split at h
      · cases h
        exact ⟨by simp [Instrument.get_performance_metrics], by omega, rfl⟩
      · cases h

theorem tech_memo (inst : Instrument)
    {r : TechnicalIndicators} {i' : Instrument} {n : Nat}
    (h : inst.get_technical_indicators = .ok (r, i', n)) :
    i'.get_technical_indicators = .ok (r, i', 0) ∧ n ≤ 1 ∧ i'.cacheTech = some r := by
  unfold Instrument.get_technical_indicators at h
  split at h
  · rename_i heq
    cases h
    exact ⟨by simp [Instrument.get_technical_indicators, heq], by omega, heq⟩
  · split at h
    · cases h
      exact ⟨by simp [Instrument.get_technical_indicators], by omega, rfl⟩
    · split at h
      · cases h
        exact ⟨by simp [Instrument.get_technical_indicators], by omega, rfl⟩
      · cases h

theorem company_memo (inst : Instrument)
    {r : CompanyInfo} {i' : Instrument} {n : Nat}
    (h : inst.get_company_info = .ok (r, i', n)) :
    i'.get_company_info = .ok (r, i', 0) ∧ n ≤ 1 ∧ i'.cacheCompany = some r := by
  unfold Instrument.get_company_info at h
  split at h
  · rename_i heq
    cases h
    exact ⟨by simp [Instrument.get_company_info, heq], by omega, heq⟩
  · split at h
    · cases h
      exact ⟨by simp [Instrument.get_company_info], by omega, rfl⟩
    · split at h
      · cases h
        exact ⟨by simp [Instrument.get_company_info], by omega, rfl⟩
      · cases h

theorem sust_memo (inst : Instrument)
    {r : SustainabilityData} {i' : Instrument} {n : Nat}
    (h : inst.get_sustainability_data = .ok (r, i', n)) :
    i'.get_sustainability_data = .ok (r, i', 0) ∧ n ≤ 1 ∧ i'.cacheSust = some r := by
  unfold Instrument.get_sustainability_data at h
  split at h
  · rename_i heq
    cases h
    exact ⟨by simp [Instrument.get_sustainability_data, heq], by omega, heq⟩
  · split at h
    · cases h
      exact ⟨by simp [Instrument.get_sustainability_data], by omega, rfl⟩
    · split at h
      · cases h
        exact ⟨by simp [Instrument.get_sustainability_data], by omega, rfl⟩
      · cases h

/-- C3: on any Instrument, once a section derivation succeeds, the
second call returns the identical cached value and the identical
aggregate, the snapshot is parsed at most once across both calls
(the first call parses at most once, the second not at all), and the
computed value sits in the memoization cell. -/
theorem section_memoization :
    (∀ (inst : Instrument) (r : FinancialRatios) (i' : Instrument) (n : Nat),
      inst.get_financial_ratios = .ok (r, i', n) →
      i'.get_financial_ratios = .ok (r, i', 0) ∧ n ≤ 1 ∧ i'.cacheRatios = some r) ∧
    (∀ (inst : Instrument) (r : PerformanceMetrics) (i' : Instrument) (n : Nat),
      inst.get_performance_metrics = .ok (r, i', n) →
      i'.get_performance_metrics = .ok (r, i', 0) ∧ n ≤ 1 ∧ i'.cachePerf = some r) ∧
    (∀ (inst : Instrument) (r : TechnicalIndicators) (i' : Instrument) (n : Nat),
      inst.get_technical_indicators = .ok (r, i', n) →
      i'.get_technical_indicators = .ok (r, i', 0) ∧ n ≤ 1 ∧ i'.cacheTech = some r) ∧
    (∀ (inst : Instrument) (r : CompanyInfo) (i' : Instrument) (n : Nat),
      inst.get_company_info = .ok (r, i', n) →
      i'.get_company_info = .ok (r, i', 0) ∧ n ≤ 1 ∧ i'.cacheCompany = some r) ∧
    (∀ (inst : Instrument) (r : SustainabilityData) (i' : Instrument) (n : Nat),
      inst.get_sustainability_data = .ok (r, i', n) →
      i'.get_sustainability_data = .ok (r, i', 0) ∧ n ≤ 1 ∧ i'.cacheSust = some r) :=
  ⟨fun inst _ _ _ h => ratios_memo inst h,
    fun inst _ _ _ h => perf_memo inst h,
    fun inst _ _ _ h => tech_memo inst h,
    fun inst _ _ _ h => company_memo inst h,
    fun inst _ _ _ h => sust_memo inst h⟩

/-- A small concrete snapshot carrying only a market capitalization. -/
def demoSnapshot : Json :=
  .obj
    [ ( "instrument",
        .obj [ ( "fundamental", .obj [ ( "marketCap", .num 1000000 ) ] ) ] ) ]

/-- Concrete instrument with `demoSnapshot` attached and cold caches. -/
def demoInstrument : Instrument :=
  { isin := sampleGood
    symbol := "SAP"
    name := "SAP SE"
    itype := .stock
    country := "DE"
    quote := none
    snapshot := some demoSnapshot
    cacheRatios := none
    cachePerf := none
    cacheTech := none
    cacheCompany := none
    cacheSust := none }

/-- The ratios `demoSnapshot` extracts: only the market cap. -/
def demoRatios : FinancialRatios :=
  { pe_ratio := none
    pb_ratio := none
    eps := none
    dividend_yield := none
    market_cap := some 1000000 }

/-- The demo instrument after the first ratios derivation. -/
def demoInstrumentWarm : Instrument :=
  { demoInstrument with cacheRatios := some demoRatios }

/-- Witness for C3: the first ratios call on the cold demo instrument
parses once, and the claim's conclusion holds there. -/
theorem section_memoization_witness :
    demoInstrumentWarm.get_financial_ratios = .ok (demoRatios, demoInstrumentWarm, 0) ∧
    1 ≤ 1 ∧ demoInstrumentWarm.cacheRatios = some demoRatios :=
  section_memoization.1 demoInstrument demoRatios demoInstrumentWarm 1 (by rfl)

/-! ### Extraction tolerance (C2) -/

theorem resolveField_eq_none {α : Type} (coerce : Json → Option α)
    {paths : List (List String)} {snap : Json}
    (h : ∀ p ∈ paths, resolvePath p snap = none) :
    resolveField coerce paths snap = none := by
  unfold resolveField
  rw [List.findSome?_eq_none_iff]
  intro p hp
  rw [h p hp, Option.none_bind]

theorem resolveField_none_of_dead {paths : List (List String)} {snap : Json}
    (h : pathsDead paths snap = true) {α : Type} (coerce : Json → Option α)
    {sub : List (List String)} (hsub : sub ⊆ paths) :
    resolveField coerce sub snap = none := by
  refine resolveField_eq_none coerce (fun p hp => ?_)
  exact Option.isNone_iff_eq_none.mp (List.all_eq_true.mp h p (hsub hp))

/-- C2: a section-derivation call fails only when the supplied
snapshot is not a mapping at all (`MalformedSnapshot`); on any
well-formed snapshot every section extraction succeeds, and when the
snapshot is missing an entire section (no candidate path of that
section resolves) the result has every field absent; an Instrument
that never had a snapshot attached answers every section call with a
fully-absent result instead of failing. -/
theorem section_tolerance :
    (∀ snap : Json, isObjB snap = false →
      extractFinancialRatios snap = .error .malformedSnapshot ∧
      extractPerformanceMetrics snap = .error .malformedSnapshot ∧
      extractTechnicalIndicators snap = .error .malformedSnapshot ∧
      extractCompanyInfo snap = .error .malformedSnapshot ∧
      extractSustainabilityData snap = .error .malformedSnapshot) ∧
    (∀ snap : Json, isObjB snap = true →
      (∃ r, extractFinancialRatios snap = .ok r) ∧
      (∃ r, extractPerformanceMetrics snap = .ok r) ∧
      (∃ r, extractTechnicalIndicators snap = .ok r) ∧
      (∃ r, extractCompanyInfo snap = .ok r) ∧
      (∃ r, extractSustainabilityData snap = .ok r)) ∧
    (∀ snap : Json, isObjB snap = true →
      (pathsDead ratiosSectionPaths snap = true →
        extractFinancialRatios snap = .ok absentRatios) ∧
      (pathsDead perfSectionPaths snap = true →
        extractPerformanceMetrics snap = .ok absentPerf) ∧
      (pathsDead techSectionPaths snap = true →
        extractTechnicalIndicators snap = .ok absentTech) ∧
      (pathsDead companySectionPaths snap = true →
        extractCompanyInfo snap = .ok absentCompany) ∧
      (pathsDead sustSectionPaths snap = true →
        extractSustainabilityData snap = .ok absentSust)) ∧
    (∀ inst : Instrument, inst.snapshot = none →
      (inst.cacheRatios = none →
        inst.get_financial_ratios =
          .ok (absentRatios, { inst with cacheRatios := some absentRatios }, 0)) ∧
      (inst.cachePerf = none →
        inst.get_performance_metrics =
          .ok (absentPerf, { inst with cachePerf := some absentPerf }, 0)) ∧
      (inst.cacheTech = none →
        inst.get_technical_indicators =
          .ok (absentTech, { inst with cacheTech := some absentTech }, 0)) ∧
      (inst.cacheCompany = none →
        inst.get_company_info =
          .ok (absentCompany, { inst with cacheCompany := some absentCompany }, 0)) ∧
      (inst.cacheSust = none →
        inst.get_sustainability_data =
          .ok (absentSust, { inst with cacheSust := some absentSust }, 0))) := by
  refine ⟨?_, ?_, ?_, ?_⟩
  · intro snap h
    have hnot : ¬ (isObjB snap = true) := by simp [h]
    refine ⟨?_, ?_, ?_, ?_, ?_⟩ <;>
      simp only [extractFinancialRatios, extractPerformanceMetrics,
        extractTechnicalIndicators, extractCompanyInfo,
        extractSustainabilityData, if_neg hnot]
  · intro snap h
    exact ⟨⟨_, by rw [extractFinancialRatios, if_pos h]⟩,
      ⟨_, by rw [extractPerformanceMetrics, if_pos h]⟩,
      ⟨_, by rw [extractTechnicalIndicators, if_pos h]⟩,
      ⟨_, by rw [extractCompanyInfo, if_pos h]⟩,
      ⟨_, by rw [extractSustainabilityData, if_pos h]⟩⟩
  · intro snap hobj
    refine ⟨?_, ?_, ?_, ?_, ?_⟩
    · intro h
      rw [extractFinancialRatios, if_pos hobj]
      rw [resolveField_none_of_dead h _
            (fun p hp => by simp [ratiosSectionPaths, hp]),
          resolveField_none_of_dead h _
            (fun p hp => by simp [ratiosSectionPaths, hp]),
          resolveField_none_of_dead h _
            (fun p hp => by simp [ratiosSectionPaths, hp]),
          resolveField_none_of_dead h _
            (fun p hp => by simp [ratiosSectionPaths, hp]),
          resolveField_none_of_dead h _
            (fun p hp => by simp [ratiosSectionPaths, hp])]
      rfl
    · intro h
      rw [extractPerformanceMetrics, if_pos hobj]
      rw [resolveField_none_of_dead h _
            (fun p hp => by simp [perfSectionPaths, hp]),
          resolveField_none_of_dead h _
            (fun p hp => by simp [perfSectionPaths, hp]),
          resolveField_none_of_dead h _
            (fun p hp => by simp [perfSectionPaths, hp]),
          resolveField_none_of_dead h _
            (fun p hp => by simp [perfSectionPaths, hp]),
          resolveField_none_of_dead h _
            (fun p hp => by simp [perfSectionPaths, hp]),
          resolveField_none_of_dead h _
            (fun p hp => by simp [perfSectionPaths, hp])]
      rfl
    · intro h
      rw [extractTechnicalIndicators, if_pos hobj]
      rw [resolveField_none_of_dead h _
            (fun p hp => by simp [techSectionPaths, hp]),
          resolveField_none_of_dead h _
            (fun p hp => by simp [techSectionPaths, hp]),
          resolveField_none_of_dead h _
            (fun p hp => by simp [techSectionPaths, hp]),
          resolveField_none_of_dead h _
            (fun p hp => by simp [techSectionPaths, hp]),
          resolveField_none_of_dead h _
            (fun p hp => by simp [techSectionPaths, hp])]
      rfl
    · intro h
      rw [extractCompanyInfo, if_pos hobj]
      rw [resolveField_none_of_dead h _
            (fun p hp => by simp [companySectionPaths, hp]),
          resolveField_none_of_dead h _
            (fun p hp => by simp [companySectionPaths, hp]),
          resolveField_none_of_dead h _
            (fun p hp => by simp [companySectionPaths, hp]),
          resolveField_none_of_dead h _
            (fun p hp => by simp [companySectionPaths, hp]),
          resolveField_none_of_dead h _
            (fun p hp => by simp [companySectionPaths, hp]),
          resolveField_none_of_dead h _
            (fun p hp => by simp [companySectionPaths, hp])]
      rfl
    · intro h
      rw [extractSustainabilityData, if_pos hobj]
      rw [resolveField_none_of_dead h _
            (fun p hp => by simp [sustSectionPaths, hp]),
          resolveField_none_of_dead h _
            (fun p hp => by simp [sustSectionPaths, hp]),
          resolveField_none_of_dead h _
            (fun p hp => by simp [sustSectionPaths, hp]),
          resolveField_none_of_dead h _
            (fun p hp => by simp [sustSectionPaths, hp]),
          resolveField_none_of_dead h _
            (fun p hp => by simp [sustSectionPaths, hp])]
      rfl
  · intro inst hsnap
    refine ⟨?_, ?_, ?_, ?_, ?_⟩ <;> intro hcache
    · simp [Instrument.get_financial_ratios, hcache, hsnap]
    · simp [Instrument.get_performance_metrics, hcache, hsnap]
    · simp [Instrument.get_technical_indicators, hcache, hsnap]
    · simp [Instrument.get_company_info, hcache, hsnap]
    · simp [Instrument.get_sustainability_data, hcache, hsnap]

/-- An instrument constructed from a lightweight search result only —
no snapshot ever attached. -/
def lightweightInstrument : Instrument :=
  instrumentOfRaw
    { isin := sampleGood
      symbol := "SAP"
      name := "SAP SE"
      itype := .stock
      country := "DE" }

/-- A well-formed snapshot with no data sections at all. -/
def bareSnapshot : Json := .obj []

/-- Witness for C2 at concrete inputs: a non-mapping snapshot fails
with MalformedSnapshot, a mapping without sections extracts a
fully-absent result, and the lightweight instrument answers with a
fully-absent result. -/
theorem section_tolerance_witness :
    (extractFinancialRatios (.num 0) = .error .malformedSnapshot ∧
      extractPerformanceMetrics (.num 0) = .error .malformedSnapshot ∧
      extractTechnicalIndicators (.num 0) = .error .malformedSnapshot ∧
      extractCompanyInfo (.num 0) = .error .malformedSnapshot ∧
      extractSustainabilityData (.num 0) = .error .malformedSnapshot) ∧
    (pathsDead ratiosSectionPaths bareSnapshot = true →
      extractFinancialRatios bareSnapshot = .ok absentRatios) ∧
    (lightweightInstrument.cacheRatios = none →
      lightweightInstrument.get_financial_ratios =
        .ok (absentRatios,
          { lightweightInstrument with cacheRatios := some absentRatios }, 0)) :=
  ⟨section_tolerance.1 (.num 0) rfl,
    (section_tolerance.2.2.1 bareSnapshot rfl).1,
    (section_tolerance.2.2.2 lightweightInstrument rfl).1⟩

/-! ### Explicit absence, no sentinels (C7) -/

/-- A snapshot whose market capitalization is literally zero. -/
def zeroCapSnapshot : Json :=
  .obj
    [ ( "instrument",
        .obj [ ( "fundamental", .obj [ ( "marketCap", .num 0 ) ] ) ] ) ]

/-- C7: a resolved field is `none` exactly when no candidate path
holds a well-typed value, and a present value always comes from the
snapshot itself — the engine never manufactures a sentinel; a stored
zero extracts as `some 0`, which is distinguishable from the absent
state `none` at the public interface. -/
theorem field_absence_explicit :
    (∀ (α : Type) (co : Json → Option α) (paths : List (List String)) (snap : Json),
      resolveField co paths snap = none ↔
        ∀ p ∈ paths, (resolvePath p snap).bind co = none) ∧
    (∀ (α : Type) (co : Json → Option α) (paths : List (List String))
        (snap : Json) (v : α),
      resolveField co paths snap = some v →
        ∃ p ∈ paths, (resolvePath p snap).bind co = some v) ∧
    (extractFinancialRatios zeroCapSnapshot =
        .ok { pe_ratio := none, pb_ratio := none, eps := none,
              dividend_yield := none, market_cap := some 0 } ∧
      extractFinancialRatios bareSnapshot = .ok absentRatios ∧
      some (0 : Rat) ≠ (none : Option Rat)) := by
  refine ⟨?_, ?_, rfl, rfl, by simp⟩
  · intro α co paths snap
    exact List.findSome?_eq_none_iff
  · intro α co paths snap v h
    exact List.exists_of_findSome?_eq_some h

/-- Witness for C7: the zero market cap is a value found in the
snapshot, not a sentinel. -/
theorem field_absence_explicit_witness :
    ∃ p ∈ marketCapPaths,
      (resolvePath p zeroCapSnapshot).bind (normalizeNumeric false) = some 0 :=
  field_absence_explicit.2.1 Rat (normalizeNumeric false) marketCapPaths
    zeroCapSnapshot 0 rfl

/-! ### Numeric normalization (C10) -/

/-- Dividend yield delivered as the raw fraction `0.034`. -/
def fractionYieldSnapshot : Json :=
  .obj
    [ ( "instrument",
        .obj [ ( "fundamental", .obj [ ( "dividendYield", .num (17 / 500) ) ] ) ] ) ]

/-- Dividend yield delivered as the string `"3.4%"`. -/
def percentYieldSnapshot : Json :=
  .obj
    [ ( "instrument",
        .obj [ ( "fundamental", .obj [ ( "dividendYield", .str "3.4%" ) ] ) ] ) ]

/-- The common normalized result: 3.4 percent. -/
def yieldRatios : FinancialRatios :=
  { pe_ratio := none
    pb_ratio := none
    eps := none
    dividend_yield := some (17 / 5)
    market_cap := none }

/-- C10: numeric fields go through the single normalization step —
a bare fraction for a percentage-kind field is scaled by 100, a
percent-signed string keeps its stated magnitude, and specifically
the two raw dividend-yield payloads `0.034` and `"3.4%"` extract to
the identical percentage representation. -/
theorem numeric_normalization :
    (∀ q : Rat, -1 < q → q < 1 →
      normalizeNumeric true (.num q) = some (100 * q)) ∧
    (∀ (cs : List Char) (r : Rat), parseNumber cs = some r →
      normalizeChars true (cs ++ [ '%' ]) = some r) ∧
    (extractFinancialRatios fractionYieldSnapshot = .ok yieldRatios ∧
      extractFinancialRatios percentYieldSnapshot = .ok yieldRatios) := by
  refine ⟨?_, ?_, ?_, ?_⟩
  · intro q h1 h2
    simp only [normalizeNumeric, decide_eq_true h1, decide_eq_true h2,
      Bool.and_true, Bool.true_and, if_true]
  · intro cs r h
    have hsp : stripPercent (cs ++ [ '%' ]) = (cs, true) := by
      simp [stripPercent, List.getLast?_concat, List.dropLast_concat]
    simp [normalizeChars, hsp, h]
  · have hnorm : normalizeNumeric true (.num (17 / 500)) = some (17 / 5) := by
      have h1 : (-1 : Rat) < 17 / 500 := by norm_num
      have h2 : (17 / 500 : Rat) < 1 := by norm_num
      simp only [normalizeNumeric, decide_eq_true h1, decide_eq_true h2]
      norm_num
    have step : extractFinancialRatios fractionYieldSnapshot =
        .ok { pe_ratio := none, pb_ratio := none, eps := none,
              dividend_yield := normalizeNumeric true (.num (17 / 500)),
              market_cap := none } := rfl
    rw [step, hnorm]
    rfl
  · have step : extractFinancialRatios percentYieldSnapshot =
        .ok { pe_ratio := none, pb_ratio := none, eps := none,
              dividend_yield :=
                some (((3 : Nat) : Rat) + ((4 : Nat) : Rat) / (10 : Rat) ^ (1 : Nat)),
              market_cap := none } := rfl
    rw [step]
    norm_num [yieldRatios]

/-- The characters of the decimal string before the percent sign. -/
def threeFourChars : List Char := [ '3', '.', '4' ]

/-- Witness for C10 at the spec's own example values. -/
theorem numeric_normalization_witness :
    normalizeNumeric true (.num (17 / 500)) = some (100 * (17 / 500 : Rat)) ∧
    normalizeChars true (threeFourChars ++ [ '%' ]) =
      some (((3 : Nat) : Rat) + ((4 : Nat) : Rat) / (10 : Rat) ^ (1 : Nat)) :=
  ⟨numeric_normalization.1 (17 / 500) (by norm_num) (by norm_num),
    numeric_normalization.2.1 threeFourChars _ rfl⟩

/-! ### Conjunctive search filters (C5) -/

/-- The query with its country filter removed. -/
def dropCountry (q : SearchQuery) : SearchQuery :=
  { q with country := none }

/-- The query with its instrument-type filter removed. -/
def dropType (q : SearchQuery) : SearchQuery :=
  { q with itype := none }

theorem matchesQuery_dropCountry {q : SearchQuery} {r : RawInstrument}
    (h : matchesQuery q r = true) : matchesQuery (dropCountry q) r = true := by
  unfold matchesQuery at h ⊢
  rw [Bool.and_eq_true] at h ⊢
  exact ⟨rfl, h.2⟩

theorem matchesQuery_dropType {q : SearchQuery} {r : RawInstrument}
    (h : matchesQuery q r = true) : matchesQuery (dropType q) r = true := by
  unfold matchesQuery at h ⊢
  rw [Bool.and_eq_true] at h ⊢
  exact ⟨h.1, rfl⟩

theorem searchResults_eq {gw : String → List RawInstrument} {q : SearchQuery}
    (ht : ¬ q.term = "") :
    searchResults gw q =
      (((gw q.term).filter (matchesQuery q)).take q.limit).map instrumentOfRaw := by
  simp [searchResults, searchByText, ht]

/-- C5 (amended): search results satisfy every provided filter;
removing one filter never yields fewer results for the same term; and
whenever the less-filtered candidate list is not truncated by the
limit, removing one filter yields a superset of the filtered results. -/
theorem search_filter_conjunctive :
    (∀ (gw : String → List RawInstrument) (q : SearchQuery) (i : Instrument),
      i ∈ searchResults gw q →
      (∀ c, q.country = some c → i.country = c) ∧
      (∀ ty, q.itype = some ty → i.itype = ty)) ∧
    (∀ (gw : String → List RawInstrument) (q : SearchQuery),
      (searchResults gw q).length ≤ (searchResults gw (dropCountry q)).length ∧
      (searchResults gw q).length ≤ (searchResults gw (dropType q)).length) ∧
    (∀ (gw : String → List RawInstrument) (q : SearchQuery),
      ((gw q.term).filter (matchesQuery (dropCountry q))).length ≤ q.limit →
      searchResults gw q ⊆ searchResults gw (dropCountry q)) ∧
    (∀ (gw : String → List RawInstrument) (q : SearchQuery),
      ((gw q.term).filter (matchesQuery (dropType q))).length ≤ q.limit →
      searchResults gw q ⊆ searchResults gw (dropType q)) := by
  refine ⟨?_, ?_, ?_, ?_⟩
  · intro gw q i hi
    by_cases ht : q.term = ""
    · simp [searchResults, searchByText, ht] at hi
    · rw [searchResults_eq ht] at hi
      obtain ⟨r, hr, hri⟩ := List.mem_map.mp hi
      have hrf := List.mem_of_mem_take hr
      have hmatch := (List.mem_filter.mp hrf).2
      rw [matchesQuery, Bool.and_eq_true] at hmatch
      subst hri
      constructor
      · intro c hc
        have := hmatch.1
        rw [hc] at this
        exact beq_iff_eq.mp this
      · intro ty hty
        have := hmatch.2
        rw [hty] at this
        exact beq_iff_eq.mp this
  · intro gw q
    by_cases ht : q.term = ""
    · simp [searchResults, searchByText, ht, dropCountry, dropType]
    · rw [searchResults_eq ht, searchResults_eq (q := dropCountry q) ht,
        searchResults_eq (q := dropType q) ht]
      simp only [List.length_map, List.length_take]
      constructor
      · exact min_le_min (le_refl q.limit)
          (List.monotone_filter_right (gw q.term)
            (fun a ha => matchesQuery_dropCountry ha)).length_le
      · exact min_le_min (le_refl q.limit)
          (List.monotone_filter_right (gw q.term)
            (fun a ha => matchesQuery_dropType ha)).length_le
  · intro gw q hlen
    by_cases ht : q.term = ""
    · simp [searchResults, searchByText, ht, dropCountry]
    · intro i hi
      rw [searchResults_eq ht] at hi
      rw [searchResults_eq (q := dropCountry q) ht]
      show i ∈ (((gw q.term).filter
        (matchesQuery (dropCountry q))).take q.limit).map instrumentOfRaw
      rw [List.take_of_length_le hlen]
      obtain ⟨r, hr, hri⟩ := List.mem_map.mp hi
      exact List.mem_map.mpr
        ⟨r, (List.monotone_filter_right (gw q.term)
          (fun a ha => matchesQuery_dropCountry ha)).subset
            (List.mem_of_mem_take hr), hri⟩
  · intro gw q hlen
    by_cases ht : q.term = ""
    · simp [searchResults, searchByText, ht, dropType]
    · intro i hi
      rw [searchResults_eq ht] at hi
      rw [searchResults_eq (q := dropType q) ht]
      show i ∈ (((gw q.term).filter
        (matchesQuery (dropType q))).take q.limit).map instrumentOfRaw
      rw [List.take_of_length_le hlen]
      obtain ⟨r, hr, hri⟩ := List.mem_map.mp hi
      exact List.mem_map.mpr
        ⟨r, (List.monotone_filter_right (gw q.term)
          (fun a ha => matchesQuery_dropType ha)).subset
            (List.mem_of_mem_take hr), hri⟩

/-- Two raw US/DE candidates returned in this remote order. -/
def rawTeslaUS : RawInstrument :=
  { isin := "US88160R1014"
    symbol := "TL0"
    name := "Tesla Inc"
    itype := .stock
    country := "US" }

def rawTeslaDE : RawInstrument :=
  { isin := "DE000TSLA000"
    symbol := "TL1"
    name := "Tesla DE"
    itype := .stock
    country := "DE" }

def cexGw : String → List RawInstrument :=
  fun _ => [ rawTeslaUS, rawTeslaDE ]

/-- Both filters, truncated to a single result. -/
def cexBoth : SearchQuery :=
  { term := "Tesla", country := some "DE", itype := some .stock, limit := 1 }

/-- Same query with a limit large enough to avoid truncation. -/
def cexWide : SearchQuery :=
  { term := "Tesla", country := some "DE", itype := some .stock, limit := 5 }

/-- Counterexample to C5 as stated: with the limit truncating the
result lists, removing the country filter replaces the DE result by
the US one, so the less-filtered result set is not a superset of the
filtered one. -/
theorem search_filter_superset_counterexample :
    instrumentOfRaw rawTeslaDE ∈ searchResults cexGw cexBoth ∧
    instrumentOfRaw rawTeslaDE ∉ searchResults cexGw (dropCountry cexBoth) := by
  constructor
  · have e : searchResults cexGw cexBoth = [ instrumentOfRaw rawTeslaDE ] := rfl
    rw [e]
    exact List.mem_singleton.mpr rfl
  · have e : searchResults cexGw (dropCountry cexBoth) =
        [ instrumentOfRaw rawTeslaUS ] := rfl
    rw [e]
    intro hmem
    have heq := List.mem_singleton.mp hmem
    have hc : rawTeslaDE.country = rawTeslaUS.country :=
      congrArg Instrument.country heq
    exact absurd hc (by decide)

/-- Witness for C5 (amended) at concrete inputs. -/
theorem search_filter_conjunctive_witness :
    (instrumentOfRaw rawTeslaDE).country = "DE" ∧
    searchResults cexGw cexWide ⊆ searchResults cexGw (dropCountry cexWide) :=
  ⟨(search_filter_conjunctive.1 cexGw cexBoth (instrumentOfRaw rawTeslaDE)
      (by exact List.mem_singleton.mpr rfl)).1 _ rfl,
    search_filter_conjunctive.2.2.1 cexGw cexWide (by decide)⟩

/-! ### Rate limiter pacing (C9) -/

theorem foldl_min_zero (l : List Nat) : l.foldl Nat.min 0 = 0 := by
  induction l with
  | nil => rfl
  | cons x xs ih =>
    rw [List.foldl_cons]
    have hm : Nat.min 0 x = 0 := by unfold Nat.min; omega
    rw [hm]
    exact ih

theorem foldl_min_mem (g : Nat) (gs : List Nat) :
    gs.foldl Nat.min g = g ∨ gs.foldl Nat.min g ∈ gs := by
  induction gs generalizing g with
  | nil => exact Or.inl rfl
  | cons x xs ih =>
    rw [List.foldl_cons]
    have hgx : Nat.min g x = g ∨ Nat.min g x = x := by unfold Nat.min; omega
    rcases ih (Nat.min g x) with h | h
    · rw [h]
      rcases hgx with h2 | h2
      · exact Or.inl h2
      · rw [h2]
        exact Or.inr (List.mem_cons_self x xs)
    · exact Or.inr (List.mem_cons_of_mem x h)

theorem earliestFree_ge (cfg : LimiterConfig) (st : LimiterState) (t : Nat) :
    t ≤ earliestFree cfg st t := by
  unfold earliestFree
  cases hag : activeGrants cfg st t with
  | nil => exact le_refl t
  | cons g gs =>
    have hmem : gs.foldl Nat.min g ∈ activeGrants cfg st t := by
      rw [hag]
      rcases foldl_min_mem g gs with h | h
      · rw [h]
        exact List.mem_cons_self g gs
      · exact List.mem_cons_of_mem g h
    unfold activeGrants at hmem
    have hlt : t < gs.foldl Nat.min g + cfg.window :=
      of_decide_eq_true (List.mem_filter.mp hmem).2
    show t ≤ gs.foldl Nat.min g + cfg.window
    omega

theorem activeGrants_replicate (cfg : LimiterConfig) {j : Nat}
    (hW : 0 < cfg.window) :
    activeGrants cfg ⟨List.replicate j 0⟩ 0 = List.replicate j 0 := by
  unfold activeGrants
  refine List.filter_eq_self.mpr (fun a ha => ?_)
  have h0 : a = 0 := List.eq_of_mem_replicate ha
  subst h0
  exact decide_eq_true (by omega)

theorem acquire_vacant (cfg : LimiterConfig) {j : Nat}
    (hW : 0 < cfg.window) (hj : j < cfg.capacity) :
    acquire cfg ⟨List.replicate j 0⟩ 0 =
      .ok (0, ⟨List.replicate (j + 1) 0⟩) := by
  unfold acquire
  rw [activeGrants_replicate cfg hW, List.length_replicate, if_pos hj]
  rfl

theorem acquire_full (cfg : LimiterConfig) (hN : 0 < cfg.capacity)
    (hW : 0 < cfg.window) (hWM : cfg.window ≤ cfg.maxWait) :
    acquire cfg ⟨List.replicate cfg.capacity 0⟩ 0 =
      .ok (cfg.window, ⟨cfg.window :: List.replicate cfg.capacity 0⟩) := by
  have he : earliestFree cfg ⟨List.replicate cfg.capacity 0⟩ 0 = cfg.window := by
    unfold earliestFree
    rw [activeGrants_replicate cfg hW]
    obtain ⟨m, hm⟩ : ∃ m, cfg.capacity = m + 1 := ⟨cfg.capacity - 1, by omega⟩
    rw [hm, List.replicate_succ]
    show (List.replicate m 0).foldl Nat.min 0 + cfg.window = cfg.window
    rw [foldl_min_zero]
    omega
  unfold acquire
  rw [activeGrants_replicate cfg hW, List.length_replicate,
    if_neg (by omega), he, if_pos (by omega)]

theorem acquireBatch_succ_ok {cfg : LimiterConfig} {st st' : LimiterState}
    {t k g : Nat} (h : acquire cfg st t = .ok (g, st')) :
    acquireBatch cfg st t (k + 1) =
      match acquireBatch cfg st' t k with
      | .error e => .error e
      | .ok (gs, st'') => .ok (g :: gs, st'') := by
  simp only [acquireBatch, h]

theorem acquireBatch_fills (cfg : LimiterConfig) (hN : 0 < cfg.capacity)
    (hW : 0 < cfg.window) (hWM : cfg.window ≤ cfg.maxWait) :
    ∀ (k j : Nat), j + k = cfg.capacity + 1 → j ≤ cfg.capacity →
      acquireBatch cfg ⟨List.replicate j 0⟩ 0 k =
        .ok (List.replicate (cfg.capacity - j) 0 ++ [cfg.window],
          ⟨cfg.window :: List.replicate cfg.capacity 0⟩) := by
  intro k
  induction k with
  | zero =>
    intro j hk hj
    exact absurd hk (by omega)
  | succ k ih =>
    intro j hk hj
    rcases Nat.lt_or_ge j cfg.capacity with hlt | hge
    · rw [acquireBatch_succ_ok (acquire_vacant cfg hW hlt),
        ih (j + 1) (by omega) (by omega)]
      have hrep : cfg.capacity - j = (cfg.capacity - (j + 1)) + 1 := by omega
      rw [hrep, List.replicate_succ, List.cons_append]
    · have hj' : j = cfg.capacity := by omega
      have hk0 : k = 0 := by omega
      subst hj'
      subst hk0
      rw [acquireBatch_succ_ok (acquire_full cfg hN hW hWM)]
      have hz : cfg.capacity - cfg.capacity = 0 := by omega
      rw [hz]
      rfl

theorem acquireBatch_split (cfg : LimiterConfig) (t : Nat) :
    ∀ (k1 k2 : Nat) (st st' : LimiterState) (gs : List Nat),
      acquireBatch cfg st t k1 = .ok (gs, st') →
      acquireBatch cfg st t (k1 + k2) =
        match acquireBatch cfg st' t k2 with
        | .error e => .error e
        | .ok (gs', st'') => .ok (gs ++ gs', st'') := by
  intro k1
  induction k1 with
  | zero =>
    intro k2 st st' gs h
    simp only [acquireBatch, Except.ok.injEq, Prod.mk.injEq] at h
    obtain ⟨hgs, hst⟩ := h
    subst hgs
    subst hst
    rw [Nat.zero_add]
    cases hc : acquireBatch cfg st t k2 with
    | error e => rfl
    | ok p => cases p with
      | mk gs' st'' => rfl
  | succ k1 ih =>
    intro k2 st st' gs h
    cases ha : acquire cfg st t with
    | error e =>
      simp [acquireBatch, ha] at h
    | ok p =>
      cases p with
      | mk g st1 =>
        rw [acquireBatch_succ_ok ha] at h
        cases hb : acquireBatch cfg st1 t k1 with
        | error e => rw [hb] at h; cases h
        | ok p2 =>
          cases p2 with
          | mk gs1 st2 =>
            rw [hb] at h
            have h2 : (Except.ok (g :: gs1, st2) :
                Except ApiError (List Nat × LimiterState)) = .ok (gs, st') := h
            cases h2
            rw [Nat.succ_add, acquireBatch_succ_ok ha, ih k2 st1 st' gs1 hb]
            cases hc : acquireBatch cfg st' t k2 with
            | error e => rfl
            | ok p3 => cases p3 with
              | mk gs' st'' => rfl

/-- C9: from an empty window, a back-to-back burst of `N + 1` requests
has its first `N` requests granted immediately and its `(N + 1)`th
granted exactly when the window frees (delayed, never dropped); a
pacing failure is always `RateLimited` and arises only when the
required wait exceeds the hard cap; whenever the wait fits under the
cap the caller is suspended until some grant time and never fails;
longer bursts extend the granted prefix without changing it, so the
`(N + 1)`th outcome is the same in every burst of `K > N` requests. -/
theorem rate_limiter_spec :
    (∀ cfg : LimiterConfig, 0 < cfg.capacity → 0 < cfg.window →
      cfg.window ≤ cfg.maxWait →
      acquireBatch cfg ⟨[]⟩ 0 (cfg.capacity + 1) =
        .ok (List.replicate cfg.capacity 0 ++ [cfg.window],
          ⟨cfg.window :: List.replicate cfg.capacity 0⟩)) ∧
    (∀ (cfg : LimiterConfig) (t k1 k2 : Nat) (st st' : LimiterState)
        (gs : List Nat),
      acquireBatch cfg st t k1 = .ok (gs, st') →
      acquireBatch cfg st t (k1 + k2) =
        match acquireBatch cfg st' t k2 with
        | .error e => .error e
        | .ok (gs', st'') => .ok (gs ++ gs', st'')) ∧
    (∀ (cfg : LimiterConfig) (st : LimiterState) (t : Nat) (e : ApiError),
      acquire cfg st t = .error e →
      e = .rateLimited ∧ cfg.maxWait < earliestFree cfg st t - t ∧
        ¬ (activeGrants cfg st t).length < cfg.capacity) ∧
    (∀ (cfg : LimiterConfig) (st : LimiterState) (t : Nat),
      earliestFree cfg st t - t ≤ cfg.maxWait →
      ∃ g st', acquire cfg st t = .ok (g, st') ∧ t ≤ g) := by
  refine ⟨?_, ?_, ?_, ?_⟩
  · intro cfg h1 h2 h3
    have := acquireBatch_fills cfg h1 h2 h3 (cfg.capacity + 1) 0
      (by omega) (by omega)
    simpa using this
  · intro cfg t k1 k2 st st' gs h
    exact acquireBatch_split cfg t k1 k2 st st' gs h
  · intro cfg st t e h
    unfold acquire at h
    split at h
    · simp at h
    · split at h
      · simp at h
      · cases h
        rename_i hc hw
        exact ⟨rfl, by omega, hc⟩
  · intro cfg st t h
    unfold acquire
    by_cases hc : (activeGrants cfg st t).length < cfg.capacity
    · rw [if_pos hc]
      exact ⟨t, ⟨t :: st.grants⟩, rfl, le_refl t⟩
    · rw [if_neg hc, if_pos h]
      exact ⟨earliestFree cfg st t, ⟨earliestFree cfg st t :: st.grants⟩,
        rfl, earliestFree_ge cfg st t⟩

/-- Witness for C9 at a concrete configuration: capacity 2, window 5,
hard cap 7 — the third of three simultaneous requests is granted at
time 5; a window-1 limiter with hard cap 7 and a 9-tick window fails
with RateLimited only because the wait exceeds the cap; and a free
limiter grants immediately. -/
theorem rate_limiter_spec_witness :
    acquireBatch ⟨2, 5, 7⟩ ⟨[]⟩ 0 3 =
      .ok (List.replicate 2 0 ++ [5], ⟨5 :: List.replicate 2 0⟩) ∧
    (acquireBatch ⟨2, 5, 7⟩ ⟨[]⟩ 0 (1 + 1) =
      match acquireBatch ⟨2, 5, 7⟩ ⟨[0]⟩ 0 1 with
      | .error e => .error e
      | .ok (gs', st'') => .ok ([0] ++ gs', st'')) ∧
    ((ApiError.rateLimited = ApiError.rateLimited) ∧
      (7 : Nat) < earliestFree ⟨1, 9, 7⟩ ⟨[0]⟩ 0 - 0 ∧
      ¬ (activeGrants ⟨1, 9, 7⟩ ⟨[0]⟩ 0).length < 1) ∧
    (∃ g st', acquire ⟨1, 9, 9⟩ ⟨[]⟩ 0 = .ok (g, st') ∧ 0 ≤ g) :=
  ⟨rate_limiter_spec.1 ⟨2, 5, 7⟩ (by decide) (by decide) (by decide),
    rate_limiter_spec.2.1 ⟨2, 5, 7⟩ 0 1 1 ⟨[]⟩ ⟨[0]⟩ [0] (by rfl),
    rate_limiter_spec.2.2.1 ⟨1, 9, 7⟩ ⟨[0]⟩ 0 .rateLimited (by rfl),
    rate_limiter_spec.2.2.2 ⟨1, 9, 9⟩ ⟨[]⟩ 0 (by decide)⟩

end Onvista
